import Mathlib

/-!
Shallow embedding of the km77-scraper spec/option table parser and the
hierarchy-discovery loops, translated from `src/trim.py`, `src/make.py`,
`src/model.py` and `src/utils.py`.

HTML fragments are modelled structurally: a cell records exactly the
attributes the scraper queries (its text, whether it carries the
`text-right` class, an optional `modal-body` list of `li` texts, and an
optional first `img` element together with that element's optional `alt`
attribute).  BeautifulSoup queries (`find`, `find_all`) become list
operations over that structure.  Python exceptions become an `Except`
error channel with one constructor per exception class the code can
raise (`IndexError`, `KeyError`, `AttributeError`, `TypeError`).
-/

instance {ε α : Type} [DecidableEq ε] [DecidableEq α] : DecidableEq (Except ε α) :=
  fun x y =>
    match x, y with
    | .error a, .error b =>
        if h : a = b then .isTrue (h ▸ rfl)
        else .isFalse fun he => h (Except.error.inj he)
    | .ok a, .ok b =>
        if h : a = b then .isTrue (h ▸ rfl)
        else .isFalse fun he => h (Except.ok.inj he)
    | .error _, .ok _ => .isFalse Except.noConfusion
    | .ok _, .error _ => .isFalse Except.noConfusion

/-- Python's whitespace test for `str.strip`: Lean's `Char.isWhitespace`
(space, tab, carriage return, newline) plus vertical tab and form feed. -/
def pyIsSpace (c : Char) : Bool :=
  c.isWhitespace || c = '\x0b' || c = '\x0c'

/-- Python `s.strip()`: drop leading and trailing whitespace. -/
def pyStrip (s : String) : String :=
  ⟨((s.data.dropWhile pyIsSpace).reverse.dropWhile pyIsSpace).reverse⟩

/-- Splitting a character list on every occurrence of a separator
character, keeping empty segments, with an accumulator for the segment
being built (Python `str.split` with a one-character separator). -/
def splitOnCharAux (sep : Char) : List Char → List Char → List (List Char)
  | [], acc => [acc.reverse]
  | c :: rest, acc =>
      if c = sep then acc.reverse :: splitOnCharAux sep rest []
      else splitOnCharAux sep rest (c :: acc)

/-- Python `s.split(sep)` for the one-character separators the scraper
uses (`"\n"` and `"|"`); every separator occurrence produces a segment
boundary, so the result never is empty and has one more segment than
there are separator occurrences. -/
def pySplit (s : String) (sep : Char) : List String :=
  (splitOnCharAux sep s.data []).map fun l => ⟨l⟩

/-- Whether `pat` occurs as a contiguous run inside the list (Python's
substring test `pat in s` on the underlying characters). -/
def containsSeq (pat : List Char) : List Char → Bool
  | [] => pat.isEmpty
  | c :: rest => pat.isPrefixOf (c :: rest) || containsSeq pat rest

/-- Python `pat in s`. -/
def strContains (s pat : String) : Bool :=
  containsSeq pat.data s.data

/-- Python `s.split("\n")[1]`: the second line when one exists. -/
def secondLine? (s : String) : Option String :=
  match pySplit s '\n' with
  | _ :: b :: _ => some b
  | _ => none

/-- The pattern `if "\n" in s: s = s.split("\n")[1].strip()`: take the
trimmed second line of multi-line text, otherwise the text unchanged. -/
def secondLineIfMulti (s : String) : String :=
  match pySplit s '\n' with
  | _ :: b :: _ => pyStrip b
  | _ => s

/-- Python `s.split("\n")[0]`; the split never returns `[]`, so the
fallback arm is unreachable. -/
def firstLineOf (s : String) : String :=
  match pySplit s '\n' with
  | a :: _ => a
  | [] => s

/-- Python `s.split("|")[0]`; the fallback arm is unreachable. -/
def firstPartOnBar (s : String) : String :=
  match pySplit s '|' with
  | a :: _ => a
  | [] => s

/-- The Python exceptions the embedded code can raise. -/
inductive PyErr
  | indexError
  | keyError
  | attributeError
  | typeError
deriving Repr, DecidableEq

/-- A `td` cell, recording the attributes `Trim.get_specops` queries:
its `.text`, whether it has the `text-right` class, the `li` texts of a
`div.modal-body` inside it when one exists, and (when an `img` element
exists inside it) that element's optional `alt` attribute. -/
structure Td where
  text : String
  textRight : Bool
  modal : Option (List String)
  img : Option (Option String)
deriving Repr, DecidableEq

/-- A row cell is a `th` (only its text is read) or a `td`. -/
inductive Cell
  | th (text : String)
  | td (c : Td)
deriving Repr, DecidableEq

/-- A `tr` element: its cells in document order. -/
structure Row where
  cells : List Cell
deriving Repr, DecidableEq

/-- `row.find_all("td")`. -/
def Row.findAllTd (r : Row) : List Td :=
  r.cells.filterMap fun c =>
    match c with
    | .td t => some t
    | .th _ => none

/-- `row.find("th")` (its text; `none` when no `th` exists). -/
def Row.findTh (r : Row) : Option String :=
  r.cells.findSome? fun c =>
    match c with
    | .th t => some t
    | .td _ => none

/-- `row.find("td", class_="text-right")`. -/
def Row.findTdTextRight (r : Row) : Option Td :=
  (r.findAllTd.filter fun t => t.textRight).head?

/-- A `table` element: the text of its `caption.caption-top` when one
exists, and its `tr` rows in document order. -/
structure Table where
  caption : Option String
  rows : List Row
deriving Repr, DecidableEq

/-- One of the two region `div`s: its tables in document order. -/
structure RegionDiv where
  tables : List Table
deriving Repr, DecidableEq

/-- The parsed markup of a trim page, as queried by `get_specops`:
`find("div", {"id": "measurements-1"})` and
`find("div", {"id": "features-2"})`. -/
structure Soup where
  measurementsDiv : Option RegionDiv
  featuresDiv : Option RegionDiv
deriving Repr, DecidableEq

/-- A value stored in a Record's data mapping: a plain string, a nested
section mapping, or a package `{price, addons}`. -/
inductive Value
  | str (s : String)
  | sub (entries : List (String × String))
  | pkg (price : String) (addons : List String)
deriving Repr, DecidableEq

/-- Python `d[k] = v` on an (insertion-ordered) dict, on an association
list with unique keys: overwrite in place when the key is present,
append otherwise. -/
def dictInsert {α : Type} : List (String × α) → String → α → List (String × α)
  | [], k, v => [(k, v)]
  | (k', v') :: rest, k, v =>
      if k' = k then (k, v) :: rest else (k', v') :: dictInsert rest k v

/-- Python `d[k]` lookup (`none` models a `KeyError`). -/
def dictFind? {α : Type} : List (String × α) → String → Option α
  | [], _ => none
  | (k', v') :: rest, k => if k' = k then some v' else dictFind? rest k

/-- One parsed table: `{caption, data}`. -/
structure Record where
  caption : String
  data : List (String × Value)
deriving Repr, DecidableEq

/-- The mutable loop state of the row loop in `Trim.get_specops`:
`data` and `last_pseudo_key`. -/
structure RowState where
  data : List (String × Value)
  lastPseudoKey : Option String
deriving Repr, DecidableEq

/-- The body of `for row in rows` in `Trim.get_specops`
(src/trim.py lines 97-144), one row:
3 `td`s → package row; no `td` → section-header row (reading the `th`,
`AttributeError` when absent); no `th` → continuation row (`IndexError`
when the second `td` is missing, `KeyError` when `last_pseudo_key` is
unset or absent from `data`, `TypeError` when `data[last_pseudo_key]`
is not a dict); otherwise key/value row (unconditional second-line
splits that raise `IndexError` on single-line text, and the
`Distintivo ambiental` image-alt special case). -/
def stepRow (st : RowState) (row : Row) : Except PyErr RowState :=
  match row.findAllTd with
  | [c0, c1, _c2] =>
      let packageName := firstLineOf (pyStrip c0.text)
      let price := pyStrip c1.text
      let addons := c0.modal.getD []
      .ok ⟨dictInsert st.data packageName (.pkg price addons), st.lastPseudoKey⟩
  | [] =>
      match row.findTh with
      | none => .error .attributeError
      | some thText =>
          let k := secondLineIfMulti thText
          .ok ⟨dictInsert st.data k (.sub []), some k⟩
  | t0 :: restTds =>
      match row.findTh with
      | none =>
          let key := secondLineIfMulti t0.text
          match restTds.head? with
          | none => .error .indexError
          | some t1 =>
              let value := secondLineIfMulti t1.text
              match st.lastPseudoKey with
              | none => .error .keyError
              | some lk =>
                  match dictFind? st.data lk with
                  | some (.sub m) =>
                      .ok ⟨dictInsert st.data lk (.sub (dictInsert m key value)),
                           st.lastPseudoKey⟩
                  | some _ => .error .typeError
                  | none => .error .keyError
      | some thText =>
          match secondLine? thText with
          | none => .error .indexError
          | some kRaw =>
              let key := pyStrip kRaw
              if strContains key "Distintivo ambiental" then
                match t0.img with
                | none => .error .typeError
                | some none => .error .keyError
                | some (some alt) =>
                    .ok ⟨dictInsert st.data key (.str alt), st.lastPseudoKey⟩
              else
                match row.findTdTextRight with
                | none => .error .attributeError
                | some tr =>
                    match secondLine? tr.text with
                    | none => .error .indexError
                    | some vRaw =>
                        .ok ⟨dictInsert st.data key (.str (pyStrip vRaw)),
                             st.lastPseudoKey⟩

/-- The row loop, folded over a list of rows; a raised exception aborts
the fold. -/
def stepRows : RowState → List Row → Except PyErr RowState
  | st, [] => .ok st
  | st, r :: rs =>
      match stepRow st r with
      | .ok st' => stepRows st' rs
      | .error e => .error e

/-- Run the row loop of one table from the initial state
(`data = {}`, `last_pseudo_key = None`) and return the data mapping. -/
def parseRows (rows : List Row) : Except PyErr (List (String × Value)) :=
  match stepRows ⟨[], none⟩ rows with
  | .ok st => .ok st.data
  | .error e => .error e

/-- Process one table (src/trim.py lines 80-144): skip it when it has
no `caption.caption-top`; otherwise normalize the caption (whole
trimmed text in the specs region, trimmed second line in the options
region, where a single-line caption raises `IndexError`), then run the
row loop. -/
def parseTable (isSpecs : Bool) (t : Table) : Except PyErr (Option Record) :=
  match t.caption with
  | none => .ok none
  | some capText =>
      let capE : Except PyErr String :=
        if isSpecs then .ok (pyStrip capText)
        else
          match secondLine? capText with
          | none => .error .indexError
          | some l => .ok (pyStrip l)
      match capE with
      | .error e => .error e
      | .ok cap =>
          match parseRows t.rows with
          | .error e => .error e
          | .ok d => .ok (some ⟨cap, d⟩)

/-- The per-trim accumulation state: `self.specs` and `self.options`. -/
structure TrimSt where
  specs : List Record
  options : List Record
deriving Repr, DecidableEq

/-- The `for table in tables` loop: each table yielding a record appends
it to `specs` or to `options` according to the region. -/
def processTables (isSpecs : Bool) : List Table → TrimSt → Except PyErr TrimSt
  | [], st => .ok st
  | t :: ts, st =>
      match parseTable isSpecs t with
      | .error e => .error e
      | .ok none => processTables isSpecs ts st
      | .ok (some rec) =>
          processTables isSpecs ts
            (if isSpecs then ⟨st.specs ++ [rec], st.options⟩
             else ⟨st.specs, st.options ++ [rec]⟩)

/-- One iteration of `for div in [specs_div, options_div]`: a missing
div is skipped, otherwise its tables are taken with empty tables
(no `tr`) removed. -/
def processDiv (isSpecs : Bool) (d : Option RegionDiv) (st : TrimSt) :
    Except PyErr TrimSt :=
  match d with
  | none => .ok st
  | some div => processTables isSpecs (div.tables.filter fun t => !t.rows.isEmpty) st

namespace Trim

/-- `Trim.get_specops` (src/trim.py lines 44-149): return unchanged when
both `specs` and `options` are already non-empty, or when no children
source is present; otherwise locate the two region divs and process
first the specs region, then the options region. -/
def get_specops (childrenSource : Option Soup) (st : TrimSt) :
    Except PyErr TrimSt :=
  if !st.specs.isEmpty && !st.options.isEmpty then .ok st
  else
    match childrenSource with
    | none => .ok st
    | some soup =>
        match processDiv true soup.measurementsDiv st with
        | .error e => .error e
        | .ok st1 => processDiv false soup.featuresDiv st1

end Trim

/-- Outcome of a fetch in `utils.get_source`: a successful response body,
or `aiohttp.TooManyRedirects`. -/
inductive FetchOutcome
  | body (text : String)
  | tooManyRedirects
deriving Repr, DecidableEq

/-- `utils.get_source` (src/utils.py lines 233-248), modelled on the
markup string it feeds to `BeautifulSoup`: a redirect-exhaustion failure
is caught and recovered as the empty markup `""`. -/
def get_source : FetchOutcome → String
  | .body t => t
  | .tooManyRedirects => ""

/-- The soup of the empty document `BeautifulSoup("", "html.parser")`:
it contains no elements, so neither region div is found in it. -/
def emptySoup : Soup :=
  ⟨none, none⟩

/-- `utils.BASE_URL`. -/
def BASE_URL : String :=
  "https://www.km77.com"

/-- A child node as built by the discovery loops: its name and
children URL (ids are assigned by the external store and are not part
of the de-duplication logic). -/
structure ChildNode where
  name : String
  url : String
deriving Repr, DecidableEq

/-- An `li.vehicle-block` element as queried by `Make.get_models`:
the `div.veh-name` (its text and its `span`'s text when each exists)
and the first `a` element (with its optional `href` attribute). -/
structure ModelBlock where
  vehName : Option (String × Option String)
  aHref : Option (Option String)
deriving Repr, DecidableEq

/-- The `for model_html in models` loop of `Make.get_models`
(src/make.py lines 59-83).  A missing `div.veh-name` or a missing
`span` raises `AttributeError`, which the loop's handler catches,
logging and returning the models collected so far; a missing `a`
element (`TypeError`) or a missing `href` attribute (`KeyError`) is
not caught there and propagates to the caller, also leaving the list
as collected so far.  A model whose extracted name equals an existing
model's name is not appended. -/
def modelsLoop : List ModelBlock → List ChildNode → List ChildNode × Option PyErr
  | [], ms => (ms, none)
  | b :: rest, ms =>
      match b.vehName with
      | none => (ms, none)
      | some (txt, spanText) =>
          let modelName := pyStrip (firstPartOnBar txt)
          if ms.all fun m => m.name != modelName then
            match spanText with
            | none => (ms, none)
            | some _ =>
                match b.aHref with
                | none => (ms, some .typeError)
                | some none => (ms, some .keyError)
                | some (some href) =>
                    modelsLoop rest
                      (ms ++ [⟨modelName, BASE_URL ++ href ++ "/datos"⟩])
          else
            modelsLoop rest ms

namespace Make

/-- `Make.get_models` (src/make.py lines 44-83): skip makes whose
children URL does not contain `"coches"` and makes without a children
source; otherwise run the discovery loop over the `li.vehicle-block`
elements. -/
def get_models (childrenUrl : String) (src : Option (List ModelBlock))
    (ms : List ChildNode) : List ChildNode × Option PyErr :=
  if !strContains childrenUrl "coches" then (ms, none)
  else
    match src with
    | none => (ms, none)
    | some blocks => modelsLoop blocks ms

end Make

/-- A `td.vehicle-name` element as queried by `Model.get_trims`: the
first `a` element (its text and optional `href` attribute) and the
first `span`'s text, when each exists. -/
structure TrimBlock where
  a : Option (String × Option String)
  spanText : Option String
deriving Repr, DecidableEq

/-- The `for trim_html in trims_html` loop of `Model.get_trims`
(src/model.py lines 69-93).  The whole body sits inside a blanket
exception handler, so any raised error (missing `a`: `AttributeError`;
single-line `a` text: `IndexError`; missing `span`: `AttributeError`;
missing `href`: `KeyError`) logs and returns the trims collected so
far.  A trim whose extracted name equals an existing trim's name is
skipped with `continue`. -/
def trimsLoop : List TrimBlock → List ChildNode → List ChildNode
  | [], ts => ts
  | b :: rest, ts =>
      match b.a with
      | none => ts
      | some (aText, href?) =>
          match secondLine? aText with
          | none => ts
          | some l =>
              let trimName := pyStrip l
              if ts.any fun t => t.name == trimName then trimsLoop rest ts
              else
                match b.spanText with
                | none => ts
                | some _ =>
                    match href? with
                    | none => ts
                    | some h => trimsLoop rest (ts ++ [⟨trimName, BASE_URL ++ h⟩])

namespace Model

/-- `Model.get_trims` (src/model.py lines 46-93): skip models whose
children URL contains `"informacion"`, models without a children
source and models with no `td.vehicle-name` elements; otherwise run
the discovery loop. -/
def get_trims (childrenUrl : String) (src : Option (List TrimBlock))
    (ts : List ChildNode) : List ChildNode :=
  if strContains childrenUrl "informacion" then ts
  else
    match src with
    | none => ts
    | some blocks => if blocks.isEmpty then ts else trimsLoop blocks ts

end Model

/-- Fixture: markup containing only the specs region, holding one
captioned table with a single section-header row. -/
def specsOnlySoup : Soup :=
  ⟨some ⟨[⟨some "Motor", [⟨[.th "Motor"]⟩]⟩]⟩, none⟩

/-- The record parsed from the fixture's specs table. -/
def motorRec : Record :=
  ⟨"Motor", [("Motor", .sub [])]⟩

/-- Fixture: markup with both regions present, each holding one
captioned single-row table. -/
def bothRegionsSoup : Soup :=
  ⟨some ⟨[⟨some "Motor", [⟨[.th "Motor"]⟩]⟩]⟩,
   some ⟨[⟨some "x\nFaros", [⟨[.th "Faros"]⟩]⟩]⟩⟩

/-- The record parsed from the fixture's options table. -/
def farosRec : Record :=
  ⟨"Faros", [("Faros", .sub [])]⟩

/-- Fixture: a model discovery block whose extracted name is `"A"`. -/
def blockA : ModelBlock :=
  ⟨some ("A | 2020", some "2020"), some (some "/coches/a")⟩

/-- Fixture: a trim discovery block whose extracted name is `"B"`. -/
def trimBlockB : TrimBlock :=
  ⟨some ("icon\nB", some "/coches/b"), some "(2020 -"⟩

/-! Helper lemmas shared by several developments below. -/

theorem stepRows_append (st : RowState) (xs ys : List Row) :
    stepRows st (xs ++ ys) =
      match stepRows st xs with
      | .ok st' => stepRows st' ys
      | .error e => .error e := by
  induction xs generalizing st with
  | nil => rfl
  | cons r rs ih =>
      simp only [List.cons_append, stepRows]
      cases stepRow st r with
      | ok st' => exact ih st'
      | error e => rfl

theorem stepRow_single_td (st : RowState) (c : Td) :
    stepRow st ⟨[.td c]⟩ = .error .indexError := by
  simp [stepRow, Row.findAllTd, Row.findTh]

theorem stepRow_cont_no_section (st : RowState) (c1 c2 : Td)
    (h : st.lastPseudoKey = none) :
    stepRow st ⟨[.td c1, .td c2]⟩ = .error .keyError := by
  simp [stepRow, Row.findAllTd, Row.findTh, h]

theorem secondLineIfMulti_of_single (s : String) (h : secondLine? s = none) :
    secondLineIfMulti s = s := by
  unfold secondLine? at h
  unfold secondLineIfMulti
  cases hsp : pySplit s '\n' with
  | nil => rfl
  | cons x xs =>
      cases xs with
      | nil => rfl
      | cons y ys => rw [hsp] at h; simp at h

/-- C5: a row carrying a label cell and exactly three value cells
matches both the package-row and key/value-row signatures; the
package-row branch wins and stores `data[name] = {price, addons}`. -/
theorem C5_package_row_precedence (st : RowState) (t : String) (c0 c1 c2 : Td) :
    stepRow st ⟨[.th t, .td c0, .td c1, .td c2]⟩ =
      .ok ⟨dictInsert st.data (firstLineOf (pyStrip c0.text))
             (.pkg (pyStrip c1.text) (c0.modal.getD [])), st.lastPseudoKey⟩ := by
  rfl

/-- C6: on a key/value row whose label (the trimmed second line of the
`th` text) contains the environmental-indicator field
`"Distintivo ambiental"`, the stored value is the alt text of the image
inside the value cell, not the cell's text. -/
theorem C6_environmental_label (st : RowState) (thText kRaw alt : String) (c : Td)
    (h1 : secondLine? thText = some kRaw)
    (h2 : strContains (pyStrip kRaw) "Distintivo ambiental" = true)
    (h3 : c.img = some (some alt)) :
    stepRow st ⟨[.th thText, .td c]⟩ =
      .ok ⟨dictInsert st.data (pyStrip kRaw) (.str alt), st.lastPseudoKey⟩ := by
  simp [stepRow, Row.findAllTd, Row.findTh, h1, h2, h3]

/-- Witness for C6: a value cell containing only an image with alt text
`"C"` yields the stored value `"C"`. -/
theorem C6_environmental_label_witness :
    stepRow ⟨[], none⟩
        ⟨[.th "i\nDistintivo ambiental", .td ⟨"", false, none, some (some "C")⟩]⟩ =
      .ok ⟨[("Distintivo ambiental", .str "C")], none⟩ := by
  have h := C6_environmental_label ⟨[], none⟩ "i\nDistintivo ambiental"
    "Distintivo ambiental" "C" ⟨"", false, none, some (some "C")⟩
    (by decide) (by decide) rfl
  simpa using h

/-- C8: a redirect-exhaustion fetch failure is recovered as empty
markup, and `get_specops` run against an absent or empty children
source returns `specs` and `options` unchanged without raising. -/
theorem C8_fetch_failure_recovered (st : TrimSt) :
    get_source .tooManyRedirects = "" ∧
      Trim.get_specops none st = .ok st ∧
      Trim.get_specops (some emptySoup) st = .ok st := by
  refine ⟨rfl, ?_, ?_⟩ <;>
    · unfold Trim.get_specops
      split <;> rfl

/-- C10: a continuation row (two value cells, no label cell) reached
while `last_pseudo_key` is still unset makes the row loop raise
`KeyError` at the write into the nested mapping, so the table produces
no record at all. -/
theorem C10_continuation_before_header (pre : List Row) (st : RowState)
    (c1 c2 : Td) (rest : List Row) (cap : String)
    (h1 : stepRows ⟨[], none⟩ pre = .ok st)
    (h2 : st.lastPseudoKey = none) :
    stepRows ⟨[], none⟩ (pre ++ ⟨[.td c1, .td c2]⟩ :: rest) = .error .keyError ∧
      parseTable true ⟨some cap, pre ++ ⟨[.td c1, .td c2]⟩ :: rest⟩ =
        .error .keyError := by
  have hrows : stepRows ⟨[], none⟩ (pre ++ ⟨[.td c1, .td c2]⟩ :: rest) =
      .error .keyError := by
    rw [stepRows_append, h1]
    simp [stepRows, stepRow_cont_no_section st c1 c2 h2]
  refine ⟨hrows, ?_⟩
  simp [parseTable, parseRows, hrows]

/-- Witness for C10: a table whose first row is a continuation row. -/
theorem C10_continuation_before_header_witness :
    stepRows ⟨[], none⟩
        [⟨[.td ⟨"a\nk", false, none, none⟩, .td ⟨"b\nv", false, none, none⟩]⟩] =
      .error .keyError ∧
      parseTable true
          ⟨some "Cap",
           [⟨[.td ⟨"a\nk", false, none, none⟩, .td ⟨"b\nv", false, none, none⟩]⟩]⟩ =
        .error .keyError :=
  C10_continuation_before_header [] ⟨[], none⟩ ⟨"a\nk", false, none, none⟩
    ⟨"b\nv", false, none, none⟩ [] "Cap" rfl rfl

/-- C4: a header-only row followed by two continuation rows (with
distinct sub-keys) produces exactly one top-level key — the header's
label — mapped to a nested mapping holding exactly the two sub-entries
in document order. -/
theorem C4_continuation_binding (L a1 b1 a2 b2 : String)
    (h : secondLineIfMulti a1 ≠ secondLineIfMulti a2) :
    parseRows
        [⟨[.th L]⟩,
         ⟨[.td ⟨a1, false, none, none⟩, .td ⟨b1, false, none, none⟩]⟩,
         ⟨[.td ⟨a2, false, none, none⟩, .td ⟨b2, false, none, none⟩]⟩] =
      .ok [(secondLineIfMulti L,
            .sub [(secondLineIfMulti a1, secondLineIfMulti b1),
                  (secondLineIfMulti a2, secondLineIfMulti b2)])] := by
  simp [parseRows, stepRows, stepRow, Row.findAllTd, Row.findTh,
    dictInsert, dictFind?, h]

/-- Witness for C4. -/
theorem C4_continuation_binding_witness :
    parseRows
        [⟨[.th "Sección"]⟩,
         ⟨[.td ⟨"x", false, none, none⟩, .td ⟨"1", false, none, none⟩]⟩,
         ⟨[.td ⟨"y", false, none, none⟩, .td ⟨"2", false, none, none⟩]⟩] =
      .ok [("Sección", .sub [("x", "1"), ("y", "2")])] := by
  have h := C4_continuation_binding "Sección" "x" "1" "y" "2" (by decide)
  simpa using h

/-- C7: a table without a `caption.caption-top` contributes zero records
however many rows it has; a captioned table's record stores the whole
trimmed caption text in the specs region and the trimmed second caption
line in the options region. -/
theorem C7_caption_handling (b : Bool) (st : TrimSt) (rs : List Row) (cap : String)
    (d : List (String × Value)) :
    processDiv b (some ⟨[⟨none, rs⟩]⟩) st = .ok st ∧
      (parseRows rs = .ok d →
        parseTable true ⟨some cap, rs⟩ = .ok (some ⟨pyStrip cap, d⟩) ∧
          ∀ l2, secondLine? cap = some l2 →
            parseTable false ⟨some cap, rs⟩ = .ok (some ⟨pyStrip l2, d⟩)) := by
  refine ⟨?_, fun hd => ⟨?_, fun l2 hl2 => ?_⟩⟩
  · cases rs with
    | nil => rfl
    | cons r rs' => simp [processDiv, processTables, parseTable]
  · simp [parseTable, hd]
  · simp [parseTable, hd, hl2]

/-- Witness for C7. -/
theorem C7_caption_handling_witness :
    processDiv true (some ⟨[⟨none, [⟨[.th "Motor"]⟩]⟩]⟩) ⟨[], []⟩ = .ok ⟨[], []⟩ ∧
      parseTable true ⟨some " Motor ", [⟨[.th "Motor"]⟩]⟩ =
        .ok (some ⟨"Motor", [("Motor", .sub [])]⟩) ∧
      parseTable false ⟨some "icon\nEquipamiento ", [⟨[.th "Motor"]⟩]⟩ =
        .ok (some ⟨"Equipamiento", [("Motor", .sub [])]⟩) := by
  have h1 := C7_caption_handling true ⟨[], []⟩ [⟨[.th "Motor"]⟩] " Motor "
    [("Motor", .sub [])]
  have h2 := C7_caption_handling false ⟨[], []⟩ [⟨[.th "Motor"]⟩] "icon\nEquipamiento "
    [("Motor", .sub [])]
  refine ⟨h1.1, ?_, ?_⟩
  · have := (h1.2 (by decide)).1
    simpa using this
  · have := (h2.2 (by decide)).2 "Equipamiento " (by decide)
    simpa using this

/-- Counterexample to C1: on markup in which only the specs region is
present, the first run leaves `options` empty, so the skip guard
(which requires both lists non-empty) does not fire and a second run
appends a duplicate record — the two runs are not structurally equal. -/
theorem C1_counterexample :
    Trim.get_specops (some specsOnlySoup) ⟨[], []⟩ = .ok ⟨[motorRec], []⟩ ∧
      Trim.get_specops (some specsOnlySoup) ⟨[motorRec], []⟩ =
        .ok ⟨[motorRec, motorRec], []⟩ ∧
      (⟨[motorRec, motorRec], []⟩ : TrimSt) ≠ ⟨[motorRec], []⟩ := by
  exact ⟨by decide, by decide, by decide⟩

/-- C1 amended: a second `get_specops` run returns the state unchanged
when the first run left both `specs` and `options` non-empty, or left
both empty; with exactly one region populated the guard does not fire
and the second run duplicates that region's records. -/
theorem C1_amended_idempotence (cs : Option Soup) (st : TrimSt)
    (h1 : Trim.get_specops cs ⟨[], []⟩ = .ok st)
    (h2 : (st.specs ≠ [] ∧ st.options ≠ []) ∨ st = ⟨[], []⟩) :
    Trim.get_specops cs st = .ok st := by
  rcases h2 with ⟨hs, ho⟩ | rfl
  · unfold Trim.get_specops
    rw [if_pos]
    simp [List.isEmpty_eq_true, hs, ho]
  · exact h1

/-- Witness for C1 amended: markup with both regions populated. -/
theorem C1_amended_idempotence_witness :
    Trim.get_specops (some bothRegionsSoup) ⟨[motorRec], [farosRec]⟩ =
      .ok ⟨[motorRec], [farosRec]⟩ :=
  C1_amended_idempotence (some bothRegionsSoup) ⟨[motorRec], [farosRec]⟩
    (by decide) (Or.inl ⟨by decide, by decide⟩)

/-- Counterexample to C2: a table containing a row that matches none of
the four recognized shapes (here a row with a single value cell and no
label cell, between two recognizable rows).  The claim predicts only
that row's data is dropped and the record keeps the other rows'
entries; the code instead raises `IndexError`, so the table yields no
record at all and every row's data is lost. -/
theorem C2_counterexample :
    parseRows
        [⟨[.th "i\nPotencia", .td ⟨"x\n170 CV", true, none, none⟩]⟩,
         ⟨[.td ⟨"orphan", false, none, none⟩]⟩,
         ⟨[.th "Sección"]⟩] = .error .indexError ∧
      parseTable true
          ⟨some "Equip",
           [⟨[.th "i\nPotencia", .td ⟨"x\n170 CV", true, none, none⟩]⟩,
            ⟨[.td ⟨"orphan", false, none, none⟩]⟩,
            ⟨[.th "Sección"]⟩]⟩ = .error .indexError := by
  exact ⟨by decide, by decide⟩

/-- C2 amended: there is no log-and-skip path for unrecognized rows; a
row with a single value cell and no label cell (which matches none of
the four shapes) is forced into the continuation branch and raises
`IndexError`, aborting the whole table's parse after any prefix of
well-formed rows, so no record is produced for the table. -/
theorem C2_no_unrecognized_row_skip (pre : List Row) (st : RowState) (c : Td)
    (rest : List Row) (cap : String)
    (h : stepRows ⟨[], none⟩ pre = .ok st) :
    stepRows ⟨[], none⟩ (pre ++ ⟨[.td c]⟩ :: rest) = .error .indexError ∧
      parseTable true ⟨some cap, pre ++ ⟨[.td c]⟩ :: rest⟩ = .error .indexError := by
  have hrows : stepRows ⟨[], none⟩ (pre ++ ⟨[.td c]⟩ :: rest) =
      .error .indexError := by
    rw [stepRows_append, h]
    simp [stepRows, stepRow_single_td]
  refine ⟨hrows, ?_⟩
  simp [parseTable, parseRows, hrows]

/-- Witness for C2 amended. -/
theorem C2_no_unrecognized_row_skip_witness :
    stepRows ⟨[], none⟩
        ([⟨[.th "Sección"]⟩] ++ ⟨[.td ⟨"orphan", false, none, none⟩]⟩ :: []) =
      .error .indexError ∧
      parseTable true
          ⟨some "Equip",
           [⟨[.th "Sección"]⟩] ++ ⟨[.td ⟨"orphan", false, none, none⟩]⟩ :: []⟩ =
        .error .indexError :=
  C2_no_unrecognized_row_skip [⟨[.th "Sección"]⟩] ⟨[("Sección", .sub [])], some "Sección"⟩
    ⟨"orphan", false, none, none⟩ [] "Equip" (by decide)

/-- Counterexample to C3: a key/value row whose label cell has
single-line text makes the parse raise `IndexError` instead of using
the single line as-is. -/
theorem C3_counterexample :
    stepRow ⟨[], none⟩ ⟨[.th "Peso", .td ⟨"x\n1500 kg", true, none, none⟩]⟩ =
        .error .indexError ∧
      parseRows [⟨[.th "Peso", .td ⟨"x\n1500 kg", true, none, none⟩]⟩] =
        .error .indexError := by
  exact ⟨by decide, by decide⟩

/-- C3 amended: the single-line fallback applies only where the code
guards the split — section-header labels and continuation sub-keys and
sub-values are used as-is when single-line — while key/value rows take
the second line of both the label cell and the right-aligned value
cell unconditionally, raising `IndexError` on single-line text there. -/
theorem C3_second_line_fallback_scoped (st : RowState) (s s2 kRaw : String)
    (a b cKV ctr : Td) (lk : String) (m : List (String × String))
    (hs : secondLine? s = none)
    (ha : secondLine? a.text = none) (hb : secondLine? b.text = none)
    (hlk : st.lastPseudoKey = some lk)
    (hm : dictFind? st.data lk = some (.sub m))
    (hk : secondLine? s2 = some kRaw)
    (hnd : strContains (pyStrip kRaw) "Distintivo ambiental" = false)
    (htr : ctr.textRight = true)
    (hctr : secondLine? ctr.text = none) :
    stepRow st ⟨[.th s]⟩ = .ok ⟨dictInsert st.data s (.sub []), some s⟩ ∧
      stepRow st ⟨[.td a, .td b]⟩ =
        .ok ⟨dictInsert st.data lk (.sub (dictInsert m a.text b.text)),
             st.lastPseudoKey⟩ ∧
      stepRow st ⟨[.th s, .td cKV]⟩ = .error .indexError ∧
      stepRow st ⟨[.th s2, .td ctr]⟩ = .error .indexError := by
  refine ⟨?_, ?_, ?_, ?_⟩
  · simp [stepRow, Row.findAllTd, Row.findTh, secondLineIfMulti_of_single s hs]
  · simp [stepRow, Row.findAllTd, Row.findTh, hlk, hm,
      secondLineIfMulti_of_single a.text ha, secondLineIfMulti_of_single b.text hb]
  · simp [stepRow, Row.findAllTd, Row.findTh, hs]
  · simp [stepRow, Row.findAllTd, Row.findTh, Row.findTdTextRight, hk, hnd,
      htr, hctr]

/-- Witness for C3 amended. -/
theorem C3_second_line_fallback_scoped_witness :
    stepRow ⟨[("Sec", .sub [])], some "Sec"⟩ ⟨[.th "Motor"]⟩ =
        .ok ⟨[("Sec", .sub []), ("Motor", .sub [])], some "Motor"⟩ ∧
      stepRow ⟨[("Sec", .sub [])], some "Sec"⟩
          ⟨[.td ⟨"k", false, none, none⟩, .td ⟨"v", false, none, none⟩]⟩ =
        .ok ⟨[("Sec", .sub [("k", "v")])], some "Sec"⟩ ∧
      stepRow ⟨[("Sec", .sub [])], some "Sec"⟩
          ⟨[.th "Motor", .td ⟨"x", false, none, none⟩]⟩ = .error .indexError ∧
      stepRow ⟨[("Sec", .sub [])], some "Sec"⟩
          ⟨[.th "i\nPeso", .td ⟨"1500", true, none, none⟩]⟩ = .error .indexError := by
  have h := C3_second_line_fallback_scoped ⟨[("Sec", .sub [])], some "Sec"⟩
    "Motor" "i\nPeso" "Peso" ⟨"k", false, none, none⟩ ⟨"v", false, none, none⟩
    ⟨"x", false, none, none⟩ ⟨"1500", true, none, none⟩ "Sec" []
    (by decide) (by decide) (by decide) rfl (by decide) (by decide) (by decide)
    rfl (by decide)
  simpa using h

theorem modelsLoop_nodup (blocks : List ModelBlock) (ms : List ChildNode)
    (h : (ms.map ChildNode.name).Nodup) :
    ((modelsLoop blocks ms).1.map ChildNode.name).Nodup := by
  induction blocks generalizing ms with
  | nil => simpa [modelsLoop] using h
  | cons b rest ih =>
      cases hv : b.vehName with
      | none => simpa [modelsLoop, hv] using h
      | some p =>
          obtain ⟨txt, spanText⟩ := p
          by_cases hall : (ms.all fun m => m.name != pyStrip (firstPartOnBar txt)) = true
          · cases spanText with
            | none => simpa [modelsLoop, hv, hall] using h
            | some y =>
                cases hh : b.aHref with
                | none => simpa [modelsLoop, hv, hall, hh] using h
                | some o =>
                    cases o with
                    | none => simpa [modelsLoop, hv, hall, hh] using h
                    | some href =>
                        have hnotin :
                            pyStrip (firstPartOnBar txt) ∉ ms.map ChildNode.name := by
                          simp only [List.all_eq_true, bne_iff_ne] at hall
                          simp only [List.mem_map]
                          rintro ⟨m, hm, hname⟩
                          exact hall m hm hname
                        have hnd :
                            ((ms ++ [(⟨pyStrip (firstPartOnBar txt),
                                BASE_URL ++ href ++ "/datos"⟩ : ChildNode)]).map
                              ChildNode.name).Nodup := by
                          rw [List.map_append, List.nodup_append]
                          refine ⟨h, List.nodup_singleton _, ?_⟩
                          intro a ha hb
                          simp only [List.map_cons, List.map_nil,
                            List.mem_singleton] at hb
                          subst hb
                          exact hnotin ha
                        simpa [modelsLoop, hv, hall, hh] using ih _ hnd
          · have hloop : modelsLoop (b :: rest) ms = modelsLoop rest ms := by
              simp [modelsLoop, hv, hall]
            rw [hloop]
            exact ih ms h

theorem trimsLoop_nodup (blocks : List TrimBlock) (ts : List ChildNode)
    (h : (ts.map ChildNode.name).Nodup) :
    ((trimsLoop blocks ts).map ChildNode.name).Nodup := by
  induction blocks generalizing ts with
  | nil => simpa [trimsLoop] using h
  | cons b rest ih =>
      cases ha : b.a with
      | none => simpa [trimsLoop, ha] using h
      | some p =>
          obtain ⟨aText, href?⟩ := p
          cases hl : secondLine? aText with
          | none => simpa [trimsLoop, ha, hl] using h
          | some l =>
              by_cases hany : (ts.any fun t => t.name == pyStrip l) = true
              · have hloop : trimsLoop (b :: rest) ts = trimsLoop rest ts := by
                  simp [trimsLoop, ha, hl, hany]
                rw [hloop]
                exact ih ts h
              · cases hs : b.spanText with
                | none => simpa [trimsLoop, ha, hl, hany, hs] using h
                | some y =>
                    cases hh : href? with
                    | none => simpa [trimsLoop, ha, hl, hany, hs, hh] using h
                    | some hr =>
                        have hnotin : pyStrip l ∉ ts.map ChildNode.name := by
                          simp only [List.any_eq_true, beq_iff_eq] at hany
                          simp only [List.mem_map]
                          rintro ⟨t, ht, hname⟩
                          exact hany ⟨t, ht, hname⟩
                        have hnd :
                            ((ts ++ [(⟨pyStrip l, BASE_URL ++ hr⟩ : ChildNode)]).map
                              ChildNode.name).Nodup := by
                          rw [List.map_append, List.nodup_append]
                          refine ⟨h, List.nodup_singleton _, ?_⟩
                          intro a ha' hb
                          simp only [List.map_cons, List.map_nil,
                            List.mem_singleton] at hb
                          subst hb
                          exact hnotin ha'
                        simpa [trimsLoop, ha, hl, hany, hs, hh] using ih _ hnd

/-- C9: child discovery de-duplicates by exact (case-sensitive) name —
a discovery block whose extracted name equals an existing child's name
adds no child — and hence any discovery run preserves distinctness of
the children's names, for both the model loop and the trim loop. -/
theorem C9_child_dedup (url turl : String) (blocks : Option (List ModelBlock))
    (tblocks : Option (List TrimBlock)) (ms ts : List ChildNode)
    (b : ModelBlock) (restB : List ModelBlock) (txt : String)
    (spanText : Option String) (tb : TrimBlock) (restT : List TrimBlock)
    (aText : String) (href? : Option String) (l : String)
    (hm : (ms.map ChildNode.name).Nodup) (ht : (ts.map ChildNode.name).Nodup)
    (hv : b.vehName = some (txt, spanText))
    (hdup : pyStrip (firstPartOnBar txt) ∈ ms.map ChildNode.name)
    (hta : tb.a = some (aText, href?))
    (htl : secondLine? aText = some l)
    (htdup : pyStrip l ∈ ts.map ChildNode.name) :
    ((Make.get_models url blocks ms).1.map ChildNode.name).Nodup ∧
      ((Model.get_trims turl tblocks ts).map ChildNode.name).Nodup ∧
      modelsLoop (b :: restB) ms = modelsLoop restB ms ∧
      trimsLoop (tb :: restT) ts = trimsLoop restT ts := by
  refine ⟨?_, ?_, ?_, ?_⟩
  · cases blocks with
    | none =>
        unfold Make.get_models
        split
        · simpa using hm
        · simpa using hm
    | some bs =>
        unfold Make.get_models
        split
        · simpa using hm
        · exact modelsLoop_nodup bs ms hm
  · cases tblocks with
    | none =>
        unfold Model.get_trims
        split
        · simpa using ht
        · simpa using ht
    | some bs =>
        unfold Model.get_trims
        split
        · simpa using ht
        · simp only []
          split
          · simpa using ht
          · exact trimsLoop_nodup bs ts ht
  · have hfalse :
        (ms.all fun m => m.name != pyStrip (firstPartOnBar txt)) = false := by
      simp only [List.mem_map] at hdup
      obtain ⟨m, hmem, hname⟩ := hdup
      simp only [List.all_eq_false, bne_iff_ne]
      exact ⟨m, hmem, not_not_intro hname⟩
    simp [modelsLoop, hv, hfalse]
  · have htrue : (ts.any fun t => t.name == pyStrip l) = true := by
      simp only [List.mem_map] at htdup
      obtain ⟨t, hmem, hname⟩ := htdup
      simp only [List.any_eq_true, beq_iff_eq]
      exact ⟨t, hmem, hname⟩
    simp [trimsLoop, hta, htl, htrue]

/-- Witness for C9: discovering an already-present name (`"A"` for a
make's models, `"B"` for a model's trims) stores no new child. -/
theorem C9_child_dedup_witness :
    ((Make.get_models "coches" (some [blockA]) [⟨"A", "u"⟩]).1.map
        ChildNode.name).Nodup ∧
      ((Model.get_trims "m" (some [trimBlockB]) [⟨"B", "v"⟩]).map
        ChildNode.name).Nodup ∧
      modelsLoop [blockA] [⟨"A", "u"⟩] = modelsLoop [] [⟨"A", "u"⟩] ∧
      trimsLoop [trimBlockB] [⟨"B", "v"⟩] = trimsLoop [] [⟨"B", "v"⟩] :=
  C9_child_dedup "coches" "m" (some [blockA]) (some [trimBlockB]) [⟨"A", "u"⟩]
    [⟨"B", "v"⟩] blockA [] "A | 2020" (some "2020") trimBlockB [] "icon\nB"
    (some "/coches/b") "B" (by decide) (by decide) rfl (by decide) rfl (by decide)
    (by decide)
